import Mathlib

/-!
Shallow embedding of a minimal HTTP/1.1 server (request parsing, header
table, response serialization, routing) written in Go.  Byte streams are
modelled as `List Char` and Go strings as Lean `String` (the requests and
headers exercised here are ASCII, where bytes and characters coincide).
The Go `bufio.Reader` is modelled by explicitly passing the remaining
stream.  Go's `map[string]string` is modelled as an association list kept
in insertion order (Go map iteration order is unspecified; the model fixes
one order and the theorems that depend on emission order account for all
orders of the entries involved).
-/

/-- Models the ASCII case folding performed by `strings.ToLower` on the
byte values 65..90; other code points are returned unchanged (the full
Unicode folding of the Go library is not exercised by ASCII header
names). -/
def lowerChar (c : Char) : Char :=
  if 65 ≤ c.toNat ∧ c.toNat ≤ 90 then Char.ofNat (c.toNat + 32) else c

/-- Models `strings.ToLower` applied to a whole string. -/
def goToLower (s : String) : String :=
  String.mk (s.data.map lowerChar)

/-- Models the Go named type `Headers` (`map[string]string`); the map is
represented as an association list in insertion order. -/
structure Headers where
  entries : List (String × String)
deriving DecidableEq

/-- Association-list lookup, modelling Go map indexing `h[k]`. -/
def hlookup : List (String × String) → String → Option String
  | [], _ => none
  | (k', v) :: t, k => if k' = k then some v else hlookup t k

/-- Association-list update, modelling Go map assignment `h[k] = v`
(overwrite in place, or append a fresh entry). -/
def hstore : List (String × String) → String → String → List (String × String)
  | [], k, v => [(k, v)]
  | (k', v') :: t, k, v =>
    if k' = k then (k, v) :: t else (k', v') :: hstore t k v

/-- Models `Headers.Get`: case-insensitive lookup, `none` for absence. -/
def Headers.Get (h : Headers) (key : String) : Option String :=
  hlookup h.entries (goToLower key)

/-- Models `Headers.Set`: stores the value under the case-folded key. -/
def Headers.Set (h : Headers) (key value : String) : Headers :=
  ⟨hstore h.entries (goToLower key) value⟩

/-- Models `NewHeaders`. -/
def NewHeaders : Headers := ⟨[]⟩

/-- Models `bufio.Reader.ReadString('\n')`: consume characters up to and
including the first newline.  Returns the characters read, the remaining
stream, and whether the delimiter was found; when it was not (the Boolean
is `false`), the Go call returns the data read so far together with the
`io.EOF` error from the underlying stream. -/
def readString : List Char → List Char × List Char × Bool
  | [] => ([], [], false)
  | c :: rest =>
    if c = '\n' then ([c], rest, true)
    else
      match readString rest with
      | (l, r, f) => (c :: l, r, f)

/-- Models `strings.Split` with a single-character separator: split at every
occurrence of `sep`, keeping empty fields; the accumulator holds the current
field reversed. -/
def goSplitAux (sep : Char) : List Char → List Char → List String
  | acc, [] => [String.mk acc.reverse]
  | acc, c :: rest =>
    if c = sep then String.mk acc.reverse :: goSplitAux sep [] rest
    else goSplitAux sep (c :: acc) rest

/-- Models `strings.Split(s, sep)` for a one-character separator. -/
def goSplit (sep : Char) (l : List Char) : List String :=
  goSplitAux sep [] l

/-- Characters accepted by Go's `unicode.IsSpace` in the Latin-1 range:
tab, newline, vertical tab, form feed, carriage return, space, NEL and
non-breaking space. -/
def goIsSpace (c : Char) : Bool :=
  c.toNat = 9 ∨ c.toNat = 10 ∨ c.toNat = 11 ∨ c.toNat = 12 ∨
  c.toNat = 13 ∨ c.toNat = 32 ∨ c.toNat = 133 ∨ c.toNat = 160

/-- Models `strings.TrimSpace`: drop leading and trailing whitespace. -/
def goTrimSpace (l : List Char) : List Char :=
  ((l.dropWhile goIsSpace).reverse.dropWhile goIsSpace).reverse

/-- Finds the first occurrence of `sep` in a list, returning the parts
before and after it; `none` when `sep` does not occur.  Together with
`headerSplit` this models `strings.SplitN(s, sep, 2)`. -/
def splitFirst (sep : List Char) : List Char → Option (List Char × List Char)
  | [] => none
  | c :: rest =>
    if sep.isPrefixOf (c :: rest) then some ([], (c :: rest).drop sep.length)
    else
      match splitFirst sep rest with
      | none => none
      | some (a, b) => some (c :: a, b)

/-- Models `strings.SplitN(strings.TrimSpace(line), ": ", 2)` as used on
each header line: one part when the separator is absent, exactly two parts
(split at the first occurrence) when it is present. -/
def headerSplit (line : List Char) : List String :=
  match splitFirst [':', ' '] (goTrimSpace line) with
  | none => [String.mk (goTrimSpace line)]
  | some (a, b) => [String.mk a, String.mk b]

/-- Models `strconv.Atoi`'s digit loop: accumulate decimal digits, failing
on any non-digit character. -/
def digitsValAux : Nat → List Char → Option Nat
  | acc, [] => some acc
  | acc, c :: rest =>
    if 48 ≤ c.toNat ∧ c.toNat ≤ 57 then
      digitsValAux (acc * 10 + (c.toNat - 48)) rest
    else none

/-- Value of a non-empty all-digit string; `none` otherwise. -/
def digitsVal (l : List Char) : Option Nat :=
  if l = [] then none else digitsValAux 0 l

/-- Models `strconv.Atoi`: optional sign followed by at least one decimal
digit, rejecting values outside the 64-bit `int` range (Go returns
`ErrRange` there, which `ParseRequest` propagates like any other error). -/
def goAtoi (s : String) : Option Int :=
  match s.data with
  | '+' :: rest =>
    (digitsVal rest).bind fun n => if n ≤ 2 ^ 63 - 1 then some (n : Int) else none
  | '-' :: rest =>
    (digitsVal rest).bind fun n => if n ≤ 2 ^ 63 then some (-(n : Int)) else none
  | l =>
    (digitsVal l).bind fun n => if n ≤ 2 ^ 63 - 1 then some (n : Int) else none

/-- The Go error values `ParseRequest` can return: `io.EOF`,
`io.ErrUnexpectedEOF`, the `fmt.Errorf("invalid request line")` value, and
the error from `strconv.Atoi`. -/
inductive GoError where
  | eof
  | unexpectedEOF
  | invalidRequestLine
  | atoiErr
deriving DecidableEq

/-- Models `io.ReadFull(reader, buf)` for a buffer of `k` bytes: on success
the bytes read and the remaining stream; `io.EOF` when no byte was
available (and `k > 0`), `io.ErrUnexpectedEOF` when the stream ended after
some but fewer than `k` bytes. -/
def readFull (s : List Char) (k : Nat) : Except GoError (List Char × List Char) :=
  if k ≤ s.length then .ok (s.take k, s.drop k)
  else if s.length = 0 then .error .eof
  else .error .unexpectedEOF

/-- Models the Go struct `RequestLine` together with the embedding
`Request` struct: request line fields, header table and body.  The source
field `HTTPVersion` keeps its name; `RequestURI` and `Method` likewise. -/
structure Request where
  Method : String
  RequestURI : String
  HTTPVersion : String
  Headers : Headers
  Body : String
deriving DecidableEq

/-- Result of `ParseRequest`: a request plus the state of the reader after
parsing, a Go error, or a runtime panic (Go's `make([]byte, n)` panics for
negative `n`, which aborts the program rather than returning). -/
inductive PResult where
  | ok (req : Request) (rest : List Char)
  | err (e : GoError)
  | panicked
deriving DecidableEq

/-- The per-line processing of the header loop (lines 221-224): a trimmed
line that splits on `": "` into exactly two parts is stored via
`Headers.Set`, any other line is silently skipped. -/
def procLine (h : Headers) (line : List Char) : Headers :=
  match headerSplit line with
  | [k, v] => Headers.Set h k v
  | _ => h

/-- Models the header loop of `ParseRequest` (lines 214-225) as a single
scan over the stream: the second argument accumulates the current line in
reverse until its `'\n'` (this fuses `reader.ReadString('\n')` into the
loop to keep the recursion structural; `parseHeaders_eq` below recovers
the loop's literal read-a-line/process/repeat shape).  When the stream
ends before a newline the loop breaks exactly as on the `ReadString`
error.  The second component of the result is the reader state after the
loop. -/
def parseHeadersAux : List Char → List Char → Headers → Headers × List Char
  | [], _, h => (h, [])
  | c :: rest, acc, h =>
    if c = '\n' then
      if (c :: acc).reverse = ['\r', '\n'] then (h, rest)
      else parseHeadersAux rest [] (procLine h ((c :: acc).reverse))
    else parseHeadersAux rest (c :: acc) h

/-- Models the header loop of `ParseRequest` with an empty current line. -/
def parseHeaders (s : List Char) (h : Headers) : Headers × List Char :=
  parseHeadersAux s [] h

/-- Models the tail of `ParseRequest` (lines 227-242): the `Content-Length`
check, `strconv.Atoi`, the body-buffer allocation (`make([]byte, num)`,
which panics when `num` is negative) and `io.ReadFull`. -/
def finishRequest (m u v : String) (hs : Headers) (rest : List Char) : PResult :=
  match Headers.Get hs "Content-Length" with
  | some n =>
    if n ≠ "0" then
      match goAtoi n with
      | none => .err .atoiErr
      | some num =>
        if num < 0 then .panicked
        else
          match readFull rest num.toNat with
          | .error e => .err e
          | .ok (body, rem) => .ok ⟨m, u, v, hs, String.mk body⟩ rem
    else .ok ⟨m, u, v, hs, ""⟩ rest
  | none => .ok ⟨m, u, v, hs, ""⟩ rest

/-- Models `ParseRequest` (lines 193-243): read the request line, split it
on spaces into exactly three fields, parse the header section, then read
the body according to `Content-Length`. -/
def ParseRequest (s : List Char) : PResult :=
  match readString s with
  | (out, rest, found) =>
    if found = false then .err .eof
    else
      match goSplit ' ' out with
      | [m, u, v] =>
        match parseHeaders rest NewHeaders with
        | (hs, rest2) => finishRequest m u v hs rest2
      | _ => .err .invalidRequestLine

/-- Models the Go `StatusLine` struct fused into `Response`: protocol
version, numeric status code and reason phrase, plus headers and body. -/
structure Response where
  HTTPVersion : String
  StatusCode : Int
  ReasonPhrase : String
  Headers : Headers
  Body : String
deriving DecidableEq

/-- Models `Response.HeaderToString`: one `name: value\r\n` line per
entry, the empty string for an empty table.  The Go loop iterates the map
in an unspecified order; the model emits the entries in the order of the
association list. -/
def Response.HeaderToString (r : Response) : String :=
  if r.Headers.entries.length = 0 then ""
  else String.join (r.Headers.entries.map fun kv => kv.1 ++ ": " ++ kv.2 ++ "\r\n")

/-- Models `Response.String` (line 276-278):
`fmt.Sprintf("%s %d %s\r\n%s\r\n%s", version, code, reason, headers, body)`. -/
def Response.render (r : Response) : String :=
  r.HTTPVersion ++ " " ++ toString r.StatusCode ++ " " ++ r.ReasonPhrase ++ "\r\n" ++
    r.HeaderToString ++ "\r\n" ++ r.Body

/-- Models `NewResponse`: `HTTP/1.1 200 OK` with empty headers and body. -/
def NewResponse : Response :=
  ⟨"HTTP/1.1", 200, "OK", NewHeaders, ""⟩

/-- Models the `HandlerFunc` callback type. -/
def HandlerFunc : Type := Request → Response

/-- Models the `Route` table entry; the source Boolean field is named
`IsPrefix` (shortened here to `IsPref`). -/
structure Route where
  Pattern : String
  IsPref : Bool
  Handler : HandlerFunc

/-- Models the `Router` struct: the ordered slice of registered routes. -/
structure Router where
  routes : List Route

/-- Models `Router.HandleExact`: append an exact-match entry. -/
def Router.HandleExact (r : Router) (path : String) (handler : HandlerFunc) : Router :=
  ⟨r.routes ++ [⟨path, false, handler⟩]⟩

/-- Models `Router.HandlePrefix`: append a prefix-match entry. -/
def Router.HandlePref (r : Router) (pre : String) (handler : HandlerFunc) : Router :=
  ⟨r.routes ++ [⟨pre, true, handler⟩]⟩

/-- Models `strings.HasPrefix`. -/
def goHasPre (s pre : String) : Bool :=
  List.isPrefixOf pre.data s.data

/-- Models the scan of `Router.Route` (lines 316-332) over the route
slice: first matching entry wins; an exhausted slice yields the built-in
`404 Not Found` response. -/
def routeScan : List Route → Request → Response
  | [], _ =>
    { NewResponse with StatusCode := 404, ReasonPhrase := "Not Found" }
  | e :: rest, req =>
    if e.IsPref then
      if goHasPre req.RequestURI e.Pattern then e.Handler req
      else routeScan rest req
    else
      if req.RequestURI = e.Pattern then e.Handler req
      else routeScan rest req

/-- Models `Router.Route`. -/
def Router.Route (r : Router) (req : Request) : Response :=
  routeScan r.routes req

/-- Models `strings.TrimPrefix`: drop `pre` when it is a leading
substring, otherwise return the string unchanged. -/
def goTrimPre (s pre : String) : String :=
  if goHasPre s pre then String.mk (s.data.drop pre.data.length) else s

/-- Models `homeHandler`: the default `200 OK` response, untouched. -/
def homeHandler : HandlerFunc := fun _ => NewResponse

/-- Models `echoHandler` (lines 23-30): body is the request target with
the `/echo/` front stripped, `Content-Type: text/plain`, and
`Content-Length` set to `strconv.Itoa(utf8.RuneCountInString(value))`,
the decimal count of the value's code points. -/
def echoHandler : HandlerFunc := fun req =>
  let value := goTrimPre req.RequestURI "/echo/"
  { NewResponse with
      Headers :=
        (NewResponse.Headers.Set "Content-Type" "text/plain").Set
          "Content-Length" (toString value.length)
      Body := value }

/-- Models `userAgentHandler` (lines 32-40). -/
def userAgentHandler : HandlerFunc := fun req =>
  match req.Headers.Get "User-Agent" with
  | some ua =>
    { NewResponse with
        Headers :=
          (NewResponse.Headers.Set "Content-Type" "text/plain").Set
            "Content-Length" (toString ua.length)
        Body := ua }
  | none => NewResponse

/-- Outcome of one connection as observable from the socket and the log:
the connection is closed silently, closed after logging a read error,
closed after writing the serialized response, or the program aborted
(a panic escaping the goroutine kills the process). -/
inductive ConnOutcome where
  | silent
  | logged (e : GoError)
  | wrote (bytes : String)
  | crashed
deriving DecidableEq

/-- Models `handleConnection` (lines 94-113): parse, treat `io.EOF` as a
silent close, log any other parse error, otherwise route and write the
rendered response.  The write itself is assumed to succeed (a failing
write only logs, which no claim here observes). -/
def handleConnection (router : Router) (s : List Char) : ConnOutcome :=
  match ParseRequest s with
  | .err .eof => .silent
  | .err e => .logged e
  | .panicked => .crashed
  | .ok req _ => .wrote (router.Route req).render

/-- Whether a route entry matches a request target, read off the guards of
`routeScan`. -/
def routeMatches (e : Route) (req : Request) : Bool :=
  if e.IsPref then goHasPre req.RequestURI e.Pattern
  else req.RequestURI == e.Pattern

/-- The response of the round-trip scenario: status line `HTTP/1.1 200
OK`, headers set through `Headers.Set`, body `"hello"`. -/
def c1Response : Response :=
  { NewResponse with
      Headers := (NewResponse.Headers.Set "Content-Type" "text/plain").Set "Content-Length" "5"
      Body := "hello" }

/-- The same response with the two (case-folded) header entries in the
opposite order, covering the other iteration order of the Go map. -/
def c1Swapped : Response :=
  { c1Response with Headers := ⟨[("content-length", "5"), ("content-type", "text/plain")]⟩ }

/-- A stream whose declared `Content-Length` is the numeric string `-1`. -/
def c5Input : List Char :=
  "GET / HTTP/1.1\r\nContent-Length: -1\r\n\r\n".data

/-- A request line whose method field is empty: the leading space makes
`strings.Split` produce the empty string as the first field. -/
def c6Input : List Char :=
  " / HTTP/1.1\r\n\r\n".data

/-- The request that `ParseRequest` extracts from `c6Input`. -/
def c6Request : Request :=
  ⟨"", "/", "HTTP/1.1\r\n", NewHeaders, ""⟩

/-- Stream for the `Content-Length` witness scenario. -/
def c2Input : List Char :=
  "POST / HTTP/1.1\r\nContent-Length: 5\r\n\r\nhello".data

/-- Request used to exercise the router in witnesses. -/
def c4Request : Request :=
  ⟨"GET", "/echo/abc", "HTTP/1.1\r\n", NewHeaders, ""⟩

/-- A second target, matching none of the registered patterns below. -/
def c4Missing : Request :=
  ⟨"GET", "/missing", "HTTP/1.1\r\n", NewHeaders, ""⟩

example : Headers.Get (Headers.Set NewHeaders "Content-Length" "5") "content-length" = some "5" := by decide
example : goToLower "Content-Length" = "content-length" := by decide

example : goAtoi "5" = some 5 := by decide
example : goAtoi "-1" = some (-1) := by decide
example : goAtoi "0" = some 0 := by decide
example : goAtoi "" = none := by decide
example : goAtoi "1a" = none := by decide
example : goSplit ' ' "GET / HTTP/1.1\r\n".data = ["GET", "/", "HTTP/1.1\r\n"] := by decide
example : goSplit ' ' "a  b\n".data = ["a", "", "b\n"] := by decide
example : headerSplit "Content-Length: 5\r\n".data = ["Content-Length", "5"] := by decide
example : headerSplit "Host: a: b\r\n".data = ["Host", "a: b"] := by decide
example : headerSplit "garbage\r\n".data = ["garbage"] := by decide

theorem readString_true_newline :
    ∀ s l r, readString s = (l, r, true) → l.getLast? = some '\n' := by
  intro s
  induction s with
  | nil => intro l r h; simp [readString] at h
  | cons c rest ih =>
    intro l r h
    by_cases hc : c = '\n'
    · simp only [readString, if_pos hc] at h
      have hl : l = [c] := (congrArg (fun p => p.1) h).symm
      rw [hl, hc]
      rfl
    · simp only [readString, if_neg hc] at h
      cases hrr : readString rest with
      | mk l' pr =>
        cases pr with
        | mk r' f =>
          rw [hrr] at h
          have hl : l = c :: l' := (congrArg (fun p => p.1) h).symm
          have hf : f = true := congrArg (fun p => p.2.2) h
          subst hf
          have hl' := ih l' r' hrr
          have hne : l' ≠ [] := by
            intro he; rw [he] at hl'; simp at hl'
          rw [hl]
          cases l' with
          | nil => exact absurd rfl hne
          | cons d t => rwa [List.getLast?_cons_cons]

theorem parseHeadersAux_spec :
    ∀ (s acc : List Char) (h : Headers),
      parseHeadersAux s acc h =
        match readString s with
        | (_, r, false) => (h, r)
        | (l, r, true) =>
          if acc.reverse ++ l = ['\r', '\n'] then (h, r)
          else parseHeadersAux r [] (procLine h (acc.reverse ++ l)) := by
  intro s
  induction s with
  | nil => intro acc h; rfl
  | cons c rest ih =>
    intro acc h
    by_cases hc : c = '\n'
    · subst hc
      simp [parseHeadersAux, readString, List.reverse_cons]
    · simp only [parseHeadersAux, if_neg hc, readString]
      cases hrr : readString rest with
      | mk l' pr =>
        cases pr with
        | mk r' f =>
          rw [ih (c :: acc) h, hrr]
          cases f with
          | false => rfl
          | true =>
            simp only [List.reverse_cons, List.append_assoc, List.singleton_append]

/-- The header loop of `ParseRequest`, in the shape of the source (lines
214-225): read one line; stop on a read error or on the bare `"\r\n"`
line; otherwise process the line and continue on the remaining stream. -/
theorem parseHeaders_eq (s : List Char) (h : Headers) :
    parseHeaders s h =
      match readString s with
      | (_, r, false) => (h, r)
      | (l, r, true) =>
        if l = ['\r', '\n'] then (h, r) else parseHeaders r (procLine h l) := by
  have hs := parseHeadersAux_spec s [] h
  simpa [parseHeaders] using hs

example :
    ParseRequest "GET / HTTP/1.1\r\n\r\n".data =
      .ok ⟨"GET", "/", "HTTP/1.1\r\n", NewHeaders, ""⟩ [] := by decide
example :
    ParseRequest "POST / HTTP/1.1\r\nContent-Length: 5\r\n\r\nhello".data =
      .ok ⟨"POST", "/", "HTTP/1.1\r\n", ⟨[("content-length", "5")]⟩, "hello"⟩ [] := by
  decide
example : ParseRequest "".data = .err .eof := by decide
example : ParseRequest "GET /\r\n".data = .err .invalidRequestLine := by decide
example :
    ParseRequest "GET / HTTP/1.1\r\nContent-Length: -1\r\n\r\n".data = .panicked := by
  decide
example :
    ParseRequest "POST / HTTP/1.1\r\nContent-Length: 5\r\n\r\nhel".data =
      .err .unexpectedEOF := by decide

example :
    (echoHandler ⟨"GET", "/echo/abc", "HTTP/1.1\r\n", NewHeaders, ""⟩).render =
      "HTTP/1.1 200 OK\r\ncontent-type: text/plain\r\ncontent-length: 3\r\n\r\nabc" := by
  decide
example :
    handleConnection ⟨[]⟩ "GET / HTTP/1.1\r\n\r\n".data =
      .wrote "HTTP/1.1 404 Not Found\r\n\r\n" := by decide

theorem lowerChar_idem (c : Char) : lowerChar (lowerChar c) = lowerChar c := by
  unfold lowerChar
  by_cases h : 65 ≤ c.toNat ∧ c.toNat ≤ 90
  · rw [if_pos h]
    have hv : (c.toNat + 32).isValidChar := Or.inl (by omega)
    have ht : (Char.ofNat (c.toNat + 32)).toNat = c.toNat + 32 := by
      rw [Char.ofNat, dif_pos hv]
      rfl
    rw [if_neg]
    rw [ht]
    intro hcontra
    omega
  · rw [if_neg h, if_neg h]

theorem goToLower_idem (s : String) : goToLower (goToLower s) = goToLower s := by
  simp [goToLower, List.map_map, Function.comp_def, lowerChar_idem]

theorem hlookup_hstore_self (l : List (String × String)) (k v : String) :
    hlookup (hstore l k v) k = some v := by
  induction l with
  | nil => simp [hstore, hlookup]
  | cons kv t ih =>
    by_cases hk : kv.1 = k
    · simp [hstore, hk, hlookup]
    · simp [hstore, hk, hlookup, ih]

theorem hstore_mem (l : List (String × String)) (k v : String) :
    ∀ kv ∈ hstore l k v, kv ∈ l ∨ kv.1 = k := by
  induction l with
  | nil => simp [hstore]
  | cons e t ih =>
    intro kv hkv
    by_cases hk : e.1 = k
    · rw [hstore, if_pos hk] at hkv
      rcases List.mem_cons.mp hkv with h | h
      · right; rw [h]
      · left; exact List.mem_cons_of_mem _ h
    · rw [hstore, if_neg hk] at hkv
      rcases List.mem_cons.mp hkv with h | h
      · left; rw [h]; exact List.mem_cons_self _ _
      · rcases ih kv h with h' | h'
        · left; exact List.mem_cons_of_mem _ h'
        · right; exact h'

theorem setFold_keys_folded (ops : List (String × String)) :
    ∀ acc : Headers, (∀ kv ∈ acc.entries, goToLower kv.1 = kv.1) →
      ∀ kv ∈ (ops.foldl (fun h kv => h.Set kv.1 kv.2) acc).entries,
        goToLower kv.1 = kv.1 := by
  induction ops with
  | nil => intro acc hacc kv hkv; exact hacc kv hkv
  | cons op t ih =>
    intro acc hacc kv hkv
    refine ih (acc.Set op.1 op.2) ?_ kv hkv
    intro kv' hkv'
    rcases hstore_mem acc.entries (goToLower op.1) op.2 kv' hkv' with h | h
    · exact hacc kv' h
    · rw [h]; exact goToLower_idem op.1

/-- C7: header names that agree up to letter case address the same entry:
`set(n1, v)` followed by `get(n2)` returns the value, because both `Set`
and `Get` case-fold the key; and after any sequence of `Set` operations
starting from the empty table, no two stored entries have names that
differ only by case. -/
theorem c7_case_insensitive_headers :
    ∀ (h : Headers) (n1 n2 v : String),
      (goToLower n1 = goToLower n2 → (h.Set n1 v).Get n2 = some v) ∧
      (∀ (ops : List (String × String)) (k1 v1 k2 v2 : String),
        (k1, v1) ∈ (ops.foldl (fun h kv => h.Set kv.1 kv.2) NewHeaders).entries →
        (k2, v2) ∈ (ops.foldl (fun h kv => h.Set kv.1 kv.2) NewHeaders).entries →
        goToLower k1 = goToLower k2 → k1 = k2) := by
  intro h n1 n2 v
  constructor
  · intro hfold
    rw [Headers.Get, Headers.Set, ← hfold]
    exact hlookup_hstore_self h.entries (goToLower n1) v
  · intro ops k1 v1 k2 v2 h1 h2 hfold
    have e1 := setFold_keys_folded ops NewHeaders (by simp [NewHeaders]) (k1, v1) h1
    have e2 := setFold_keys_folded ops NewHeaders (by simp [NewHeaders]) (k2, v2) h2
    simp only at e1 e2
    rw [← e1, ← e2, hfold]

/-- C7 witness: a concrete set/get pair across different casings, and a
concrete two-`set` sequence whose stored entries coincide. -/
theorem c7_witness :
    (NewHeaders.Set "Content-Length" "5").Get "CONTENT-length" = some "5" ∧
    ("content-length" : String) = "content-length" :=
  ⟨(c7_case_insensitive_headers NewHeaders "Content-Length" "CONTENT-length" "5").1 (by decide),
   (c7_case_insensitive_headers NewHeaders "Content-Length" "CONTENT-length" "5").2
     [("Content-Length", "1"), ("CONTENT-LENGTH", "2")] "content-length" "2" "content-length" "2"
     (by decide) (by decide) (by decide)⟩

/-- C1 counterexample: on the scenario response (headers set through the
Header Table, body `"hello"`), the serializer produces neither of the two
claimed byte strings — whichever order the two header entries are emitted
in — because `Headers.Set` stored the names case-folded to lowercase. -/
theorem c1_counterexample :
    (c1Response.render ≠
        "HTTP/1.1 200 OK\r\nContent-Type: text/plain\r\nContent-Length: 5\r\n\r\nhello" ∧
      c1Response.render ≠
        "HTTP/1.1 200 OK\r\nContent-Length: 5\r\nContent-Type: text/plain\r\n\r\nhello") ∧
    (c1Swapped.render ≠
        "HTTP/1.1 200 OK\r\nContent-Type: text/plain\r\nContent-Length: 5\r\n\r\nhello" ∧
      c1Swapped.render ≠
        "HTTP/1.1 200 OK\r\nContent-Length: 5\r\nContent-Type: text/plain\r\n\r\nhello") := by
  decide

/-- C1 amended: the serializer produces the claimed bytes with the two
header names case-folded to lowercase (in either emission order of the
two entries). -/
theorem c1_render_lowercase :
    c1Response.render =
      "HTTP/1.1 200 OK\r\ncontent-type: text/plain\r\ncontent-length: 5\r\n\r\nhello" ∧
    c1Swapped.render =
      "HTTP/1.1 200 OK\r\ncontent-length: 5\r\ncontent-type: text/plain\r\n\r\nhello" := by
  decide

/-- C9: an empty stream makes `ParseRequest` return the propagated
`io.EOF` (not a parse error value), and `handleConnection` then closes
the connection silently: nothing is logged and no response bytes are
written, whatever routes are registered. -/
theorem c9_empty_stream_silent :
    ParseRequest ([] : List Char) = .err .eof ∧
    GoError.eof ≠ GoError.invalidRequestLine ∧
    ∀ router : Router, handleConnection router [] = .silent := by
  exact ⟨rfl, by decide, fun _ => rfl⟩

theorem routeScan_cons_matches (e : Route) (rest : List Route) (req : Request)
    (h : routeMatches e req = true) :
    routeScan (e :: rest) req = e.Handler req := by
  rw [routeMatches] at h
  rw [routeScan]
  by_cases hp : e.IsPref
  · rw [if_pos hp] at h ⊢
    rw [if_pos h]
  · rw [if_neg hp] at h ⊢
    rw [if_pos (eq_of_beq h)]

theorem routeScan_cons_skip (e : Route) (rest : List Route) (req : Request)
    (h : routeMatches e req = false) :
    routeScan (e :: rest) req = routeScan rest req := by
  rw [routeMatches] at h
  rw [routeScan]
  by_cases hp : e.IsPref
  · rw [if_pos hp] at h ⊢
    rw [if_neg (by simp [h])]
  · rw [if_neg hp] at h ⊢
    rw [if_neg (by simpa using h)]

/-- C4: `Router.Route` scans the registered entries in order and the
first match wins — with `[A, B, C]` registered in that order and both `A`
and `C` matching, the result is `A`'s handler's response; and when no
entry matches, the result is the built-in `404 Not Found` response with
empty headers and empty body. -/
theorem c4_first_match_wins :
    ∀ (A B C : Route) (req : Request),
      (routeMatches A req = true → routeMatches C req = true →
        Router.Route ⟨[A, B, C]⟩ req = A.Handler req) ∧
      (∀ rs : List Route, (∀ e ∈ rs, routeMatches e req = false) →
        Router.Route ⟨rs⟩ req = ⟨"HTTP/1.1", 404, "Not Found", ⟨[]⟩, ""⟩) := by
  intro A B C req
  constructor
  · intro hA _
    exact routeScan_cons_matches A [B, C] req hA
  · intro rs hrs
    rw [Router.Route]
    induction rs with
    | nil => rfl
    | cons e t ih =>
      rw [routeScan_cons_skip e t req (hrs e (List.mem_cons_self _ _))]
      exact ih fun e' he' => hrs e' (List.mem_cons_of_mem _ he')

/-- C4 witness: with a matching prefix entry first and a matching exact
entry last, the first handler answers; a target matching nothing yields
the 404 response. -/
theorem c4_witness :
    Router.Route ⟨[⟨"/echo/", true, echoHandler⟩, ⟨"/user-agent", false, userAgentHandler⟩,
        ⟨"/echo/abc", false, homeHandler⟩]⟩ c4Request = echoHandler c4Request ∧
    Router.Route ⟨[⟨"/echo/", true, echoHandler⟩]⟩ c4Missing =
      ⟨"HTTP/1.1", 404, "Not Found", ⟨[]⟩, ""⟩ :=
  ⟨(c4_first_match_wins ⟨"/echo/", true, echoHandler⟩ ⟨"/user-agent", false, userAgentHandler⟩
      ⟨"/echo/abc", false, homeHandler⟩ c4Request).1 (by decide) (by decide),
   (c4_first_match_wins ⟨"/echo/", true, echoHandler⟩ ⟨"/user-agent", false, userAgentHandler⟩
      ⟨"/echo/abc", false, homeHandler⟩ c4Missing).2 [⟨"/echo/", true, echoHandler⟩]
      (by intro e he; simp at he; rw [he]; decide)⟩

/-- C10: on any request whose target starts with `/echo/`, the echo
handler answers with status 200, `Content-Type: text/plain`, body equal
to the target's suffix after `/echo/`, and `Content-Length` equal to the
decimal count of code points of that suffix. -/
theorem c10_echo :
    ∀ (uri : String), goHasPre uri "/echo/" = true →
      ∀ (m v : String) (hs : Headers) (b : String),
        (echoHandler ⟨m, uri, v, hs, b⟩).StatusCode = 200 ∧
        (echoHandler ⟨m, uri, v, hs, b⟩).Headers.Get "Content-Type" = some "text/plain" ∧
        (echoHandler ⟨m, uri, v, hs, b⟩).Body = String.mk (uri.data.drop "/echo/".data.length) ∧
        (echoHandler ⟨m, uri, v, hs, b⟩).Headers.Get "Content-Length" =
          some (toString (String.mk (uri.data.drop "/echo/".data.length)).length) := by
  intro uri hpre m v hs b
  have hval : goTrimPre uri "/echo/" = String.mk (uri.data.drop "/echo/".data.length) := by
    rw [goTrimPre, if_pos hpre]
  have hct : goToLower "Content-Type" = "content-type" := by decide
  have hcl : goToLower "Content-Length" = "content-length" := by decide
  refine ⟨rfl, ?_, ?_, ?_⟩
  · simp [echoHandler, Headers.Get, Headers.Set, hct, hcl, NewResponse, NewHeaders,
      hstore, hlookup]
  · simp [echoHandler, hval]
  · simp [echoHandler, Headers.Get, Headers.Set, hct, hcl, NewResponse, NewHeaders,
      hstore, hlookup, hval]

/-- C10 witness: target `/echo/abc` gives status 200, body `abc` and
`Content-Length` 3. -/
theorem c10_witness :
    (echoHandler ⟨"GET", "/echo/abc", "HTTP/1.1\r\n", NewHeaders, ""⟩).StatusCode = 200 ∧
    (echoHandler ⟨"GET", "/echo/abc", "HTTP/1.1\r\n", NewHeaders, ""⟩).Headers.Get "Content-Type" =
      some "text/plain" ∧
    (echoHandler ⟨"GET", "/echo/abc", "HTTP/1.1\r\n", NewHeaders, ""⟩).Body =
      String.mk ("/echo/abc".data.drop "/echo/".data.length) ∧
    (echoHandler ⟨"GET", "/echo/abc", "HTTP/1.1\r\n", NewHeaders, ""⟩).Headers.Get "Content-Length" =
      some (toString (String.mk ("/echo/abc".data.drop "/echo/".data.length)).length) :=
  c10_echo "/echo/abc" (by decide) "GET" "HTTP/1.1\r\n" NewHeaders ""

example : String.mk ("/echo/abc".data.drop "/echo/".data.length) = "abc" := by decide
example :
    toString (String.mk ("/echo/abc".data.drop "/echo/".data.length)).length = "3" := by decide

theorem ParseRequest_eq_finish (s line rest : List Char) (m u v : String)
    (hs : Headers) (rest2 : List Char)
    (h1 : readString s = (line, rest, true))
    (h2 : goSplit ' ' line = [m, u, v])
    (h3 : parseHeaders rest NewHeaders = (hs, rest2)) :
    ParseRequest s = finishRequest m u v hs rest2 := by
  unfold ParseRequest
  rw [h1]
  simp only
  rw [if_neg (by simp), h2]
  simp only
  rw [h3]

theorem ParseRequest_eq_invalid (s line rest : List Char)
    (h1 : readString s = (line, rest, true))
    (h2 : (goSplit ' ' line).length ≠ 3) :
    ParseRequest s = .err .invalidRequestLine := by
  unfold ParseRequest
  rw [h1]
  simp only
  rw [if_neg (by simp)]
  rcases hsp : goSplit ' ' line with _ | ⟨m, _ | ⟨u, _ | ⟨v, _ | ⟨w, tl⟩⟩⟩⟩ <;>
    simp_all

theorem readFull_error_cases (s : List Char) (k : Nat) (e : GoError)
    (h : readFull s k = .error e) : e = .eof ∨ e = .unexpectedEOF := by
  unfold readFull at h
  split at h
  · exact absurd h (by simp)
  · split at h
    · injection h with h'
      exact Or.inl h'.symm
    · injection h with h'
      exact Or.inr h'.symm

theorem finishRequest_ne_invalidLine (m u v : String) (hs : Headers) (r2 : List Char) :
    finishRequest m u v hs r2 ≠ .err .invalidRequestLine := by
  unfold finishRequest
  split
  · split
    · split
      · simp
      · split
        · simp
        · split
          · rename_i e heq
            rcases readFull_error_cases r2 _ e heq with h | h <;> simp [h]
          · simp
    · simp
  · simp

theorem finishRequest_ok_fields (m u v : String) (hs : Headers) (r2 : List Char)
    (r : Request) (rem : List Char) (h : finishRequest m u v hs r2 = .ok r rem) :
    r.Method = m ∧ r.RequestURI = u ∧ r.HTTPVersion = v ∧ r.Headers = hs := by
  unfold finishRequest at h
  split at h
  · split at h
    · split at h
      · exact absurd h (by simp)
      · split at h
        · exact absurd h (by simp)
        · split at h
          · exact absurd h (by simp)
          · injection h with h1 _
            rw [← h1]
            exact ⟨rfl, rfl, rfl, rfl⟩
    · injection h with h1 _
      rw [← h1]
      exact ⟨rfl, rfl, rfl, rfl⟩
  · injection h with h1 _
    rw [← h1]
    exact ⟨rfl, rfl, rfl, rfl⟩

/-- C3: `ParseRequest` splits the first line on single spaces and fails
with the `invalid request line` error exactly when that split does not
have three fields; on success the three fields are returned verbatim
(unth trimmed) as method, request target and protocol version. -/
theorem c3_request_line :
    ∀ s : List Char,
      (ParseRequest s = .err .invalidRequestLine ↔
        (readString s).2.2 = true ∧ (goSplit ' ' (readString s).1).length ≠ 3) ∧
      (∀ (r : Request) (rest : List Char), ParseRequest s = .ok r rest →
        goSplit ' ' (readString s).1 = [r.Method, r.RequestURI, r.HTTPVersion]) := by
  intro s
  rcases hrs : readString s with ⟨line, pr⟩
  rcases pr with ⟨rst, found⟩
  cases found with
  | false =>
    have hP : ParseRequest s = .err .eof := by
      unfold ParseRequest
      rw [hrs]
      simp
    constructor
    · rw [hP]
      simp
    · intro r rest h
      rw [hP] at h
      exact absurd h (by simp)
  | true =>
    by_cases hlen : (goSplit ' ' line).length = 3
    · rcases hsp : goSplit ' ' line with _ | ⟨m, _ | ⟨u, _ | ⟨v, _ | ⟨w, tl⟩⟩⟩⟩ <;>
        rw [hsp] at hlen <;> try simp at hlen
      rcases hph : parseHeaders rst NewHeaders with ⟨hs, rest2⟩
      have hP := ParseRequest_eq_finish s line rst m u v hs rest2 hrs hsp hph
      constructor
      · rw [hP]
        simp only
        constructor
        · intro hcontra
          exact absurd hcontra (finishRequest_ne_invalidLine m u v hs rest2)
        · rintro ⟨-, hbad⟩
          simp at hbad
      · intro r rest h
        rw [hP] at h
        obtain ⟨hm, hu, hv, -⟩ := finishRequest_ok_fields m u v hs rest2 r rest h
        rw [hm, hu, hv]
    · have hP := ParseRequest_eq_invalid s line rst hrs hlen
      constructor
      · rw [hP]
        simp [hlen]
      · intro r rest h
        rw [hP] at h
        exact absurd h (by simp)

/-- C3 witness: a well-formed request line is returned verbatim, the
version keeping its line terminator. -/
theorem c3_witness :
    goSplit ' ' (readString "GET /p HTTP/1.1\r\n\r\n".data).1 =
      ["GET", "/p", "HTTP/1.1\r\n"] :=
  (c3_request_line "GET /p HTTP/1.1\r\n\r\n".data).2
    ⟨"GET", "/p", "HTTP/1.1\r\n", NewHeaders, ""⟩ [] (by decide)

/-- C2: behaviour of `ParseRequest` after the header section, in terms of
the header table `hs` and remaining stream `rest2` the header loop
produced.  A present `Content-Length` whose value is not `"0"`: a
non-numeric value fails with the `strconv.Atoi` error; a numeric `k > 0`
with at least `k` bytes available yields a body of exactly `k` bytes
(and only those bytes are consumed); fewer than `k` available bytes
fails with the error of the truncated `io.ReadFull`.  An absent or
`"0"`-valued header yields an empty body with no body bytes read. -/
theorem c2_content_length_body :
    ∀ (s line rest : List Char) (m u v : String) (hs : Headers) (rest2 : List Char),
      readString s = (line, rest, true) →
      goSplit ' ' line = [m, u, v] →
      parseHeaders rest NewHeaders = (hs, rest2) →
      ((∀ n : String, hs.Get "Content-Length" = some n → n ≠ "0" → goAtoi n = none →
          ParseRequest s = .err .atoiErr) ∧
        (∀ (n : String) (k : Int), hs.Get "Content-Length" = some n → n ≠ "0" →
          goAtoi n = some k → 0 < k → k.toNat ≤ rest2.length →
          ParseRequest s =
            .ok ⟨m, u, v, hs, String.mk (rest2.take k.toNat)⟩ (rest2.drop k.toNat) ∧
          (String.mk (rest2.take k.toNat)).length = k.toNat) ∧
        (∀ (n : String) (k : Int), hs.Get "Content-Length" = some n → n ≠ "0" →
          goAtoi n = some k → 0 < k → rest2.length < k.toNat →
          (ParseRequest s = .err .eof ∨ ParseRequest s = .err .unexpectedEOF)) ∧
        ((hs.Get "Content-Length" = none ∨ hs.Get "Content-Length" = some "0") →
          ParseRequest s = .ok ⟨m, u, v, hs, ""⟩ rest2)) := by
  intro s line rest m u v hs rest2 h1 h2 h3
  have hP := ParseRequest_eq_finish s line rest m u v hs rest2 h1 h2 h3
  refine ⟨?_, ?_, ?_, ?_⟩
  · intro n hg hn ha
    rw [hP]
    unfold finishRequest
    rw [hg]
    simp only
    rw [if_pos hn, ha]
  · intro n k hg hn ha hk hle
    have hnneg : ¬k < 0 := by omega
    constructor
    · rw [hP]
      unfold finishRequest
      rw [hg]
      simp only
      rw [if_pos hn, ha]
      simp only
      rw [if_neg hnneg]
      unfold readFull
      rw [if_pos hle]
    · show (rest2.take k.toNat).length = k.toNat
      rw [List.length_take]
      omega
  · intro n k hg hn ha hk hlt
    have hnneg : ¬k < 0 := by omega
    have hnle : ¬k.toNat ≤ rest2.length := by omega
    rw [hP]
    unfold finishRequest
    rw [hg]
    simp only
    rw [if_pos hn, ha]
    simp only
    rw [if_neg hnneg]
    unfold readFull
    rw [if_neg hnle]
    by_cases h0 : rest2.length = 0
    · rw [if_pos h0]
      exact Or.inl rfl
    · rw [if_neg h0]
      exact Or.inr rfl
  · intro hg
    rcases hg with hg | hg
    · rw [hP]
      unfold finishRequest
      rw [hg]
    · rw [hP]
      unfold finishRequest
      rw [hg]
      simp only
      rw [if_neg (by simp)]

/-- C2 witness: `Content-Length: 5` with five available bytes parses a
five-byte body and consumes exactly those bytes. -/
theorem c2_witness :
    ParseRequest c2Input =
      .ok ⟨"POST", "/", "HTTP/1.1\r\n", ⟨[("content-length", "5")]⟩,
        String.mk ("hello".data.take (5 : Int).toNat)⟩ ("hello".data.drop (5 : Int).toNat) ∧
    (String.mk ("hello".data.take (5 : Int).toNat)).length = (5 : Int).toNat :=
  (c2_content_length_body c2Input "POST / HTTP/1.1\r\n".data
      "Content-Length: 5\r\n\r\nhello".data "POST" "/" "HTTP/1.1\r\n"
      ⟨[("content-length", "5")]⟩ "hello".data
      (by decide) (by decide) (by decide)).2.1 "5" 5
    (by decide) (by decide) (by decide) (by decide) (by decide)

/-- C5: the claim that `ParseRequest` never aborts is wrong on the code:
the value `-1` passes the `strconv.Atoi` step, and the body-buffer
allocation `make([]byte, -1)` then panics, aborting the program. -/
theorem c5_negative_content_length_aborts :
    goAtoi "-1" = some (-1) ∧ ParseRequest c5Input = .panicked := by
  decide

/-- C6 counterexample: a request line starting with a space parses
successfully (three space-separated fields) with an empty method field,
refuting the invariant that all three fields are non-empty. -/
theorem c6_counterexample :
    ParseRequest c6Input = .ok c6Request [] ∧ c6Request.Method = "" := by
  decide

theorem goSplitAux_last (sep d : Char) (hd : d ≠ sep) :
    ∀ (l acc : List Char), l.getLast? = some d →
      ∃ ys p, goSplitAux sep acc l = ys ++ [String.mk p] ∧ p ≠ [] := by
  intro l
  induction l with
  | nil => intro acc h; simp at h
  | cons c rest ih =>
    intro acc h
    cases rest with
    | nil =>
      have hc : c = d := by simpa using h
      subst hc
      refine ⟨[], (c :: acc).reverse, ?_, by simp⟩
      show (if c = sep then String.mk acc.reverse :: goSplitAux sep [] []
          else goSplitAux sep (c :: acc) []) = [] ++ [String.mk ((c :: acc).reverse)]
      rw [if_neg hd]
      rfl
    | cons c2 t =>
      rw [List.getLast?_cons_cons] at h
      by_cases hc : c = sep
      · obtain ⟨ys, p, hys, hp⟩ := ih [] h
        refine ⟨String.mk acc.reverse :: ys, p, ?_, hp⟩
        show (if c = sep then String.mk acc.reverse :: goSplitAux sep [] (c2 :: t)
            else goSplitAux sep (c :: acc) (c2 :: t)) =
          (String.mk acc.reverse :: ys) ++ [String.mk p]
        rw [if_pos hc, hys]
        rfl
      · obtain ⟨ys, p, hys, hp⟩ := ih (c :: acc) h
        refine ⟨ys, p, ?_, hp⟩
        show (if c = sep then String.mk acc.reverse :: goSplitAux sep [] (c2 :: t)
            else goSplitAux sep (c :: acc) (c2 :: t)) = ys ++ [String.mk p]
        rw [if_neg hc]
        exact hys

/-- C6 amended: when `ParseRequest` succeeds, the protocol-version field
is a non-empty string (the final field of the space-split request line
always contains at least the line terminator); the method and target are
returned verbatim and, contrary to the claim, may be empty. -/
theorem c6_version_nonempty :
    ∀ (s : List Char) (r : Request) (rest : List Char),
      ParseRequest s = .ok r rest → r.HTTPVersion ≠ "" := by
  intro s r rest h
  rcases hrs : readString s with ⟨line, pr⟩
  rcases pr with ⟨rst, found⟩
  cases found with
  | false =>
    have hP : ParseRequest s = .err .eof := by
      unfold ParseRequest
      rw [hrs]
      simp
    rw [hP] at h
    exact absurd h (by simp)
  | true =>
    by_cases hlen : (goSplit ' ' line).length = 3
    · rcases hsp : goSplit ' ' line with _ | ⟨m, _ | ⟨u, _ | ⟨v, _ | ⟨w, tl⟩⟩⟩⟩ <;>
        rw [hsp] at hlen <;> try simp at hlen
      rcases hph : parseHeaders rst NewHeaders with ⟨hs, rest2⟩
      rw [ParseRequest_eq_finish s line rst m u v hs rest2 hrs hsp hph] at h
      obtain ⟨-, -, hv, -⟩ := finishRequest_ok_fields m u v hs rest2 r rest h
      have hnl : line.getLast? = some '\n' := readString_true_newline s line rst hrs
      obtain ⟨ys, p, hys, hp⟩ := goSplitAux_last ' ' '\n' (by decide) line [] hnl
      have hcat : [m, u, v] = ys ++ [String.mk p] := by
        rw [← hsp, goSplit, hys]
      have hvp : v = String.mk p := by
        have h1 : ([m, u, v] : List String).getLast? = some v := rfl
        rw [hcat, List.getLast?_concat] at h1
        exact (Option.some.injEq _ _).mp h1.symm
      rw [hv, hvp]
      intro hcontra
      apply hp
      simpa using congrArg String.data hcontra
    · rw [ParseRequest_eq_invalid s line rst hrs hlen] at h
      exact absurd h (by simp)

/-- C6 amended witness: the version field of a successfully parsed
request is non-empty. -/
theorem c6_witness : c6Request.HTTPVersion ≠ "" :=
  c6_version_nonempty c6Input c6Request [] (by decide)

theorem splitFirst_append (sep : List Char) :
    ∀ (l a b : List Char), splitFirst sep l = some (a, b) → l = a ++ sep ++ b := by
  intro l
  induction l with
  | nil => intro a b h; simp [splitFirst] at h
  | cons c rest ih =>
    intro a b h
    by_cases hp : sep.isPrefixOf (c :: rest)
    · rw [splitFirst, if_pos hp] at h
      injection h with h'
      obtain ⟨t, ht⟩ := List.isPrefixOf_iff_prefix.mp hp
      have ha : a = [] := (congrArg Prod.fst h').symm
      have hb : b = (c :: rest).drop sep.length := (congrArg Prod.snd h').symm
      rw [ha, hb, ← ht, List.drop_left]
      simp
    · rw [splitFirst, if_neg hp] at h
      cases hsr : splitFirst sep rest with
      | none => rw [hsr] at h; exact absurd h (by simp)
      | some ab =>
        rcases ab with ⟨a', b'⟩
        rw [hsr] at h
        injection h with h'
        have ha : a = c :: a' := (congrArg Prod.fst h').symm
        have hb : b = b' := (congrArg Prod.snd h').symm
        rw [ha, hb, ih a' b' hsr]
        simp

/-- C8: each header line (read while not the bare `"\r\n"`) is trimmed
and split on the first `": "` into at most two parts; when the separator
is absent the line is silently skipped — the header loop continues
unchanged, never failing — and when it is present the loop stores name
and value, with the value being the verbatim remainder after the first
`": "` (so a second `": "` inside it is preserved). -/
theorem c8_header_line_leniency :
    ∀ (s line rest : List Char) (h : Headers),
      readString s = (line, rest, true) →
      line ≠ ['\r', '\n'] →
      ((splitFirst [':', ' '] (goTrimSpace line) = none →
          parseHeaders s h = parseHeaders rest h) ∧
        (∀ a b : List Char, splitFirst [':', ' '] (goTrimSpace line) = some (a, b) →
          parseHeaders s h = parseHeaders rest (h.Set (String.mk a) (String.mk b)) ∧
          goTrimSpace line = a ++ [':', ' '] ++ b)) := by
  intro s line rest h h1 hne
  have hP : parseHeaders s h = parseHeaders rest (procLine h line) := by
    rw [parseHeaders_eq s h, h1]
    simp only
    rw [if_neg hne]
  constructor
  · intro hsf
    rw [hP]
    unfold procLine headerSplit
    rw [hsf]
  · intro a b hsf
    refine ⟨?_, splitFirst_append [':', ' '] (goTrimSpace line) a b hsf⟩
    rw [hP]
    unfold procLine headerSplit
    rw [hsf]

/-- C8 witness: the line `User-Agent: foo: bar` stores the value
`foo: bar` verbatim: the split stops at the first `": "`. -/
theorem c8_witness :
    parseHeaders "User-Agent: foo: bar\r\n\r\n".data NewHeaders =
      parseHeaders "\r\n".data
        (NewHeaders.Set (String.mk "User-Agent".data) (String.mk "foo: bar".data)) ∧
    goTrimSpace "User-Agent: foo: bar\r\n".data =
      "User-Agent".data ++ [':', ' '] ++ "foo: bar".data :=
  (c8_header_line_leniency "User-Agent: foo: bar\r\n\r\n".data
      "User-Agent: foo: bar\r\n".data "\r\n".data NewHeaders (by decide) (by decide)).2
    "User-Agent".data "foo: bar".data (by decide)
